import Mathlib

/-!
Verification development for the zeno file-structure-driven HTTP server core.

The definitions below are a shallow embedding of the TypeScript sources:
  * src/core/router.ts        (trie router, route cache, reload)
  * src/core/middleware.ts    (global and path-scoped middleware pipeline)
  * utils/loadBalancer.ts     (worker selection algorithms)
  * utils/gracefulShutdown.ts (shutdown coordinator)
  * utils/timeout.ts + adapters/node.ts (per-request timeout middleware)

JavaScript `Map` and plain-object records are modelled as insertion-ordered
association lists (`List (key × value)`), which matches the iteration order
semantics the source relies on.  Handlers are opaque values of a type
parameter `H` (the router never calls them, it only stores and returns them).
-/

set_option maxRecDepth 10000

/-- JS `Map.set`: replace the value in place when the key exists (keeping its
position), otherwise append a fresh entry at the end. -/
def jsMapSet [BEq α] (m : List (α × β)) (k : α) (v : β) : List (α × β) :=
  if (m.lookup k).isSome then
    m.map (fun e => if e.1 == k then (k, v) else e)
  else
    m ++ [(k, v)]

/-- JS `Map.delete`: drop the entry with the given key. -/
def jsMapDelete [BEq α] (m : List (α × β)) (k : α) : List (α × β) :=
  m.filter (fun e => !(e.1 == k))

/-- JS object spread `\x7b ...params, [name]: value \x7d`: an existing key keeps its
position and gets the new value, a new key is appended. -/
def jsRecordSet (ps : List (String × String)) (k v : String) : List (String × String) :=
  if (ps.lookup k).isSome then
    ps.map (fun e => if e.1 == k then (e.1, v) else e)
  else
    ps ++ [(k, v)]

/-- Character class of the JS regex `\w` (ASCII word character). -/
def isWordChar (c : Char) : Bool :=
  c.isAlphanum || c == '_'

/-- Result of `parsePattern` in router.ts: segment classification at insertion
time. -/
structure ParsedPattern where
  name : String
  isParam : Bool
  isOptional : Bool
deriving DecidableEq

/-- `parsePattern(pattern)` from router.ts: tests the segment against the regex
`^\[(\w+)(\??)]` (note: not anchored at the end, trailing characters after the
closing bracket are ignored, exactly as in the source). -/
def parsePattern (pat : String) : ParsedPattern :=
  match pat.data with
  | '[' :: rest =>
    let ws := rest.takeWhile isWordChar
    let rest' := rest.dropWhile isWordChar
    if ws.isEmpty then { name := pat, isParam := false, isOptional := false }
    else
      match rest' with
      | ']' :: _ => { name := String.mk ws, isParam := true, isOptional := false }
      | '?' :: ']' :: _ => { name := String.mk ws, isParam := true, isOptional := true }
      | _ => { name := pat, isParam := false, isOptional := false }
  | _ => { name := pat, isParam := false, isOptional := false }

/-- `RouteMatchResult` from router.ts.  `allowedMethods = none` models the
absent field. -/
structure RouteMatchResult (H : Type) where
  handlers : List H
  params : List (String × String)
  allowedMethods : Option (List String) := none
deriving DecidableEq

/-- `RouteNode` from router.ts.  `paramChild` packs `(name, node, isOptional)`;
`handlers` and `wildcardHandler` are method-keyed records of handler stacks. -/
inductive RouteNode (H : Type) : Type where
  | mk
    (handlers : List (String × List H))
    (staticChildren : List (String × RouteNode H))
    (paramChild : Option (String × RouteNode H × Bool))
    (wildcardHandler : Option (List (String × List H)))
    (isEndpoint : Bool)

def RouteNode.handlers : RouteNode H → List (String × List H)
  | .mk h _ _ _ _ => h

def RouteNode.staticChildren : RouteNode H → List (String × RouteNode H)
  | .mk _ s _ _ _ => s

def RouteNode.paramChild : RouteNode H → Option (String × RouteNode H × Bool)
  | .mk _ _ p _ _ => p

def RouteNode.wildcardHandler : RouteNode H → Option (List (String × List H))
  | .mk _ _ _ w _ => w

def RouteNode.isEndpoint : RouteNode H → Bool
  | .mk _ _ _ _ e => e

/-- `createNode()` from router.ts. -/
def createNode : RouteNode H :=
  .mk [] [] none none false

/-- Push a handler onto a method-keyed record, creating the list when the
method key is absent (`if (!handlers[m]) handlers[m] = []; handlers[m].push`). -/
def pushHandler (hs : List (String × List H)) (m : String) (h : H) : List (String × List H) :=
  if (hs.lookup m).isSome then
    hs.map (fun e => if e.1 == m then (e.1, e.2 ++ [h]) else e)
  else
    hs ++ [(m, [h])]

/-- Split a character list at every occurrence of the separator, keeping empty
chunks (the semantics of JS `split('/')`); defined structurally so that it
evaluates inside the kernel. -/
def splitOnChar (sep : Char) : List Char → List (List Char)
  | [] => [[]]
  | c :: t =>
    if c == sep then [] :: splitOnChar sep t
    else
      match splitOnChar sep t with
      | h :: rest => (c :: h) :: rest
      | [] => [[c]]

/-- `routePath.split('/').filter(Boolean)`. -/
def splitSegments (p : String) : List String :=
  ((splitOnChar '/' p.data).map String.mk).filter (fun s => !s.data.isEmpty)

/-- Body of `Router.addRoute` walking the segment list.  The returned Bool is
`true` when the loop ran to completion (so the endpoint is marked, the route
counted and the cache cleared) and `false` when the wildcard branch returned
early from `addRoute` (skipping all of that, exactly as the source does). -/
def addSegs (method : String) (handler : H) : RouteNode H → List String → RouteNode H × Bool
  | .mk hs st pc wc _, [] =>
    (.mk (pushHandler hs method handler) st pc wc true, true)
  | .mk hs st pc wc ep, seg :: rest =>
    let parsed := parsePattern seg
    if parsed.isParam then
      match pc with
      | some (nm, child, opt) =>
        let r := addSegs method handler child rest
        (.mk hs st (some (nm, r.1, opt)) wc ep, r.2)
      | none =>
        let r := addSegs method handler createNode rest
        (.mk hs st (some (parsed.name, r.1, parsed.isOptional)) wc ep, r.2)
    else if seg == "*" then
      (.mk hs st pc (some (pushHandler (wc.getD []) method handler)) ep, false)
    else
      match st.lookup seg with
      | some child =>
        let r := addSegs method handler child rest
        (.mk hs (st.map (fun e => if e.1 == seg then (seg, r.1) else e)) pc wc ep, r.2)
      | none =>
        let r := addSegs method handler createNode rest
        (.mk hs (st ++ [(seg, r.1)]) pc wc ep, r.2)

/-- The `Router` state: route trie root, `(method:path) → result` cache and the
route counter (the `lastLoaded` timestamp and `verbose` flag of the source feed
only logging and `getStats`, so they are not modelled). -/
structure Router (H : Type) where
  rootNode : RouteNode H
  cachedRoutes : List (String × RouteMatchResult H)
  routeCount : Nat

/-- `new Router()`. -/
def Router.new : Router H :=
  { rootNode := createNode, cachedRoutes := [], routeCount := 0 }

/-- `Router.addRoute(method, routePath, handler)`.  On normal completion it
marks the endpoint, bumps the count and clears the route cache; the early
wildcard return skips all three. -/
def Router.addRoute (r : Router H) (method routePath : String) (handler : H) : Router H :=
  let res := addSegs method handler r.rootNode (splitSegments routePath)
  if res.2 then
    { rootNode := res.1, cachedRoutes := [], routeCount := r.routeCount + 1 }
  else
    { rootNode := res.1, cachedRoutes := r.cachedRoutes, routeCount := r.routeCount }

/-- Handler collection at the end of the segment walk: the requested method's
stack, then the `HEAD → GET` fallback, then the method-agnostic empty-string
key (router.ts lines 200-212). -/
def collectHandlers (hs : List (String × List H)) (method : String) : List H :=
  ((hs.lookup method).getD []) ++
    (if method == "HEAD" then (hs.lookup "GET").getD [] else []) ++
    ((hs.lookup "").getD [])

/-- `Object.keys(handlers).filter(m => m !== '' && handlers[m].length > 0)`. -/
def availableMethodsOf (hs : List (String × List H)) : List String :=
  (hs.filter (fun e => !(e.1 == "") && !e.2.isEmpty)).map (fun e => e.1)

/-- Method-not-allowed fallback at the end of the segment walk (router.ts
lines 239-247). -/
def availableFallback (node : RouteNode H) (params : List (String × String)) :
    Option (RouteMatchResult H) :=
  let avail := availableMethodsOf node.handlers
  if !avail.isEmpty then some { handlers := [], params := params, allowedMethods := some avail }
  else none

/-- `Router.findRouteRecursive(node, segments, method, params, index)`.  The
running index into `segments` is modelled by consuming the list, so
`segments.slice(index)` is the current list.  At each node the exact static
child is tried first, then the parameter child (binding the segment), then the
wildcard record — the first non-null result wins. -/
def findRouteRecursive :
    RouteNode H → List String → String → List (String × String) → Option (RouteMatchResult H)
  | node, [], method, params =>
    let hs := collectHandlers node.handlers method
    if node.isEndpoint && !hs.isEmpty then
      some { handlers := hs, params := params, allowedMethods := none }
    else
      match node.paramChild with
      | some (_, child, true) =>
        if child.isEndpoint then
          let chs := collectHandlers child.handlers method
          if !chs.isEmpty then
            some { handlers := chs, params := params, allowedMethods := none }
          else availableFallback node params
        else availableFallback node params
      | _ => availableFallback node params
  | node, seg :: rest, method, params =>
    let stat : Option (RouteMatchResult H) :=
      match node.staticChildren.lookup seg with
      | some child => findRouteRecursive child rest method params
      | none => none
    match stat with
    | some found => some found
    | none =>
      let par : Option (RouteMatchResult H) :=
        match node.paramChild with
        | some (nm, child, _) => findRouteRecursive child rest method (jsRecordSet params nm seg)
        | none => none
      match par with
      | some found => some found
      | none =>
        match node.wildcardHandler with
        | some wh =>
          let rem := String.intercalate "/" (seg :: rest)
          match wh.lookup method with
          | some whs => some { handlers := whs, params := jsRecordSet params "*" rem, allowedMethods := none }
          | none =>
            match wh.lookup "" with
            | some whs => some { handlers := whs, params := jsRecordSet params "*" rem, allowedMethods := none }
            | none =>
              let avail := availableMethodsOf wh
              if !avail.isEmpty then
                some { handlers := [], params := jsRecordSet params "*" rem, allowedMethods := some avail }
              else none
        | none => none

/-- `url.replace(/\/+$/, '')`: remove every trailing slash. -/
def stripTrailingSlashes (s : String) : String :=
  String.mk ((s.data.reverse.dropWhile (fun c => c == '/')).reverse)

/-- Router.findRoute's normalization: the root path keeps its slash, every
other URL has trailing slashes stripped. -/
def normalizeUrl (url : String) : String :=
  if url == "/" then "/" else stripTrailingSlashes url

/-- The fixed method list probed by `getAllowedMethods`. -/
def httpMethods : List String :=
  ["GET", "POST", "PUT", "DELETE", "PATCH", "HEAD", "OPTIONS"]

/-- `Router.getAllowedMethods(url)`: probe the trie with every method and keep
those whose match produced a non-empty handler list. -/
def Router.getAllowedMethods (r : Router H) (url : String) : List String :=
  httpMethods.filter (fun m =>
    match findRouteRecursive r.rootNode (splitSegments url) m [] with
    | some res => !res.handlers.isEmpty
    | none => false)

/-- `Router.findRoute(method, url)`.  Returns the result together with the
updated router, modelling the cache mutation: a cache hit returns the stored
result; a computed result with handlers (or a method-not-allowed result) is
stored back, evicting the oldest 100 entries when the cache exceeds 1000. -/
def Router.findRoute (r : Router H) (method url : String) : RouteMatchResult H × Router H :=
  let normalizedUrl := normalizeUrl url
  let cacheKey := method ++ ":" ++ normalizedUrl
  match r.cachedRoutes.lookup cacheKey with
  | some cached => (cached, r)
  | none =>
    let result := findRouteRecursive r.rootNode (splitSegments normalizedUrl) method []
    let handlersEmpty : Bool :=
      match result with
      | some res => res.handlers.isEmpty
      | none => true
    let fallthrough : RouteMatchResult H × Router H :=
      match result with
      | some res =>
        let c1 := jsMapSet r.cachedRoutes cacheKey res
        let c2 := if c1.length > 1000 then c1.drop 100 else c1
        (res, { rootNode := r.rootNode, cachedRoutes := c2, routeCount := r.routeCount })
      | none =>
        ({ handlers := [], params := [], allowedMethods := none }, r)
    if handlersEmpty then
      let allowed := r.getAllowedMethods normalizedUrl
      if !allowed.isEmpty then
        let mna : RouteMatchResult H :=
          { handlers := [], params := [], allowedMethods := some allowed }
        (mna, { rootNode := r.rootNode,
                cachedRoutes := jsMapSet r.cachedRoutes cacheKey mna,
                routeCount := r.routeCount })
      else fallthrough
    else fallthrough

/-- The module-level `findRoute(url, method)` result type: `null`, a
`RouteError`, or a matched handler with bound params. -/
inductive FindRouteResult (H : Type) where
  | routeNull
  | routeErr (error : String) (status : Nat) (allowedMethods : List String)
  | routeHandler (handler : H) (params : List (String × String))
deriving DecidableEq

/-- The exported module-level `findRoute(url, method = "GET")` wrapper: maps
the Router result to null / 405 RouteError / first handler.  The router state
threading mirrors the singleton mutation. -/
def findRoute (r : Router H) (url : String) (method : String := "GET") :
    FindRouteResult H × Router H :=
  let res := r.findRoute method url
  let result := res.1
  let allowedEmpty : Bool :=
    match result.allowedMethods with
    | none => true
    | some ms => ms.isEmpty
  if result.handlers.isEmpty && allowedEmpty then
    (.routeNull, res.2)
  else if result.handlers.isEmpty then
    (.routeErr "Method Not Allowed" 405 ((result.allowedMethods).getD []), res.2)
  else
    match result.handlers with
    | h :: _ => (.routeHandler h result.params, res.2)
    | [] => (.routeNull, res.2)

/-! ### Route reload (`Router.loadRoutes`)

`loadRoutes` resets `rootNode`, clears the cache and zeroes the counter, then
`await`s the middleware reload and the directory scan, calling `addRoute` once
per discovered (method, path, handler).  Each `await` is a suspension point at
which concurrent requests may run `findRoute`, so the reload is modelled as a
script of atomic steps: the initial synchronous reset, then one insertion per
discovered route.  The observable states are the states between steps. -/

inductive ReloadStep (H : Type) where
  | clear
  | add (method : String) (path : String) (handler : H)

/-- One atomic step of the reload: the synchronous reset block at the top of
`loadRoutes`, or one `addRoute` call made by the directory scan. -/
def applyReloadStep (r : Router H) : ReloadStep H → Router H
  | .clear => { rootNode := createNode, cachedRoutes := [], routeCount := 0 }
  | .add m p h => r.addRoute m p h

/-- The step script of `loadRoutes` for a scan discovering the given routes in
order. -/
def reloadScript (L : List (String × String × H)) : List (ReloadStep H) :=
  .clear :: L.map (fun x => .add x.1 x.2.1 x.2.2)

/-- `Router.loadRoutes` run to completion over the discovered route list. -/
def Router.loadRoutes (r : Router H) (L : List (String × String × H)) : Router H :=
  (reloadScript L).foldl applyReloadStep r

/-- Every router state observable by a concurrent `findRoute` around a reload:
the pre-reload state, the state after the reset, the state after each
insertion, and the final state. -/
def reloadObservables (r : Router H) (L : List (String × String × H)) : List (Router H) :=
  (reloadScript L).scanl applyReloadStep r

/-- A route table built from scratch (fresh router, insertions only). -/
def loadList (L : List (String × String × H)) : Router H :=
  L.foldl (fun r x => r.addRoute x.1 x.2.1 x.2.2) Router.new

/-! ### Middleware pipeline (src/core/middleware.ts)

Hooks are modelled by their observable behaviour: they either return a JS
value or throw.  `runMiddlewares` only inspects whether the returned value is
strictly `false` (the `result === false` test), and catches thrown errors. -/

/-- The three middleware phases (`MiddlewareType` in the source). -/
inductive MiddlewareType where
  | beforeRequest
  | afterRequest
  | onError
deriving DecidableEq

/-- A JS value as far as the pipeline can observe it.  `vNum 0`, `vStr ""`,
`vNull`, `vUndefined` and `vFalse` are the falsy values. -/
inductive JSVal where
  | vFalse
  | vTrue
  | vUndefined
  | vNull
  | vNum (n : Int)
  | vStr (s : String)
deriving DecidableEq

/-- JS truthiness: the falsy values. -/
def JSVal.isFalsy : JSVal → Bool
  | .vFalse => true
  | .vUndefined => true
  | .vNull => true
  | .vNum n => n == 0
  | .vStr s => s.isEmpty
  | .vTrue => false

/-- Observable behaviour of one middleware callback: resolve with a value, or
throw (errors are identified by a number). -/
inductive HookSpec where
  | ret (v : JSVal)
  | throwErr (e : Nat)
deriving DecidableEq

/-- The three per-phase hook lists of a middleware module or of the global
registry. -/
structure PhaseHooks where
  beforeRequest : List HookSpec := []
  afterRequest : List HookSpec := []
  onError : List HookSpec := []
deriving DecidableEq, Inhabited

/-- Select the hook list of a phase. -/
def PhaseHooks.get (ph : PhaseHooks) : MiddlewareType → List HookSpec
  | .beforeRequest => ph.beforeRequest
  | .afterRequest => ph.afterRequest
  | .onError => ph.onError

/-- The middleware state: the module-level `globalMiddlewares` record and the
`pathMiddlewares` map (insertion-ordered, keyed by path). -/
structure MwRegistry where
  globalMiddlewares : PhaseHooks
  pathMiddlewares : List (String × PhaseHooks)
deriving DecidableEq

/-- `isPathApplicable(middlewarePath, requestPath)`: both sides are given a
trailing slash, the root scope matches everything, otherwise a string-prefix
test.  (The source memoizes this pure function in `pathMatchCache`, which does
not change its value.)  `endsWith "/"`/`startsWith` are modelled by the
structural helpers below. -/
def endsWithSlash (s : String) : Bool :=
  match s.data.getLast? with
  | some c => c == '/'
  | none => false

/-- Structural string prefix test (`target.startsWith(candidate)`). -/
def listPrefixOf : List Char → List Char → Bool
  | [], _ => true
  | _ :: _, [] => false
  | a :: as, b :: bs => a == b && listPrefixOf as bs

def isPathApplicable (middlewarePath requestPath : String) : Bool :=
  let nm := if endsWithSlash middlewarePath then middlewarePath else middlewarePath ++ "/"
  let nr := if endsWithSlash requestPath then requestPath else requestPath ++ "/"
  if nm == "/" then true else listPrefixOf nm.data nr.data

/-- Stable insertion of a path into a list sorted by descending length. -/
def insertByLenDesc (x : String) : List String → List String
  | [] => [x]
  | y :: ys => if y.length < x.length then x :: y :: ys else y :: insertByLenDesc x ys

/-- `Array.from(keys()).sort((a, b) => b.length - a.length)`: stable sort by
descending length (V8's sort is stable). -/
def sortByLenDesc : List String → List String
  | [] => []
  | x :: xs => insertByLenDesc x (sortByLenDesc xs)

/-- How a phase's hook list ends: all hooks passed, or hook number `n`
(1-based from the start of this list) halted the phase by returning strict
`false`, or by throwing error `e`. -/
inductive HooksExit where
  | passed (n : Nat)
  | haltedFalse (n : Nat)
  | haltedThrow (n : Nat) (e : Nat)
deriving DecidableEq

/-- Add `k` to the executed-hook count of an exit. -/
def HooksExit.addCount (x : HooksExit) (k : Nat) : HooksExit :=
  match x with
  | .passed n => .passed (n + k)
  | .haltedFalse n => .haltedFalse (n + k)
  | .haltedThrow n e => .haltedThrow (n + k) e

/-- Run one hook list: each hook runs in order; a return of strict `false`
halts, a throw halts, any other return value continues. -/
def runHooks : List HookSpec → HooksExit
  | [] => .passed 0
  | .ret v :: t => if v = .vFalse then .haltedFalse 1 else (runHooks t).addCount 1
  | .throwErr e :: _ => .haltedThrow 1 e

/-- Observable outcome of a `runMiddlewares` call.  `cont` is the boolean the
source returns; `globalRan` counts executed global hooks of the phase;
`pathRan` records, per applicable scoped path reached, how many of its hooks
executed; `errorCalls` records each nested `runMiddlewares("onError", ...)`
invocation as its `(error, phase, path?)` context (the source discards the
nested call's return value). -/
structure RunResult where
  cont : Bool
  globalRan : Nat
  pathRan : List (String × Nat)
  errorCalls : List (Nat × MiddlewareType × Option String)
deriving DecidableEq

/-- The path-scoped loop of `runMiddlewares`: walk the length-sorted paths,
run the hooks of each applicable one; strict `false` halts everything, a throw
additionally routes to `onError` (with the path in the context) unless the
phase already is `onError`. -/
def runPathLoop (reg : MwRegistry) (phase : MiddlewareType) (urlPath : String) :
    List String → Bool × List (String × Nat) × List (Nat × MiddlewareType × Option String)
  | [] => (true, [], [])
  | p :: ps =>
    if isPathApplicable p urlPath then
      let hooks := ((reg.pathMiddlewares.lookup p).getD default).get phase
      match runHooks hooks with
      | .passed n =>
        let r := runPathLoop reg phase urlPath ps
        (r.1, (p, n) :: r.2.1, r.2.2)
      | .haltedFalse n => (false, [(p, n)], [])
      | .haltedThrow n e =>
        (false, [(p, n)], if phase = .onError then [] else [(e, phase, some p)])
    else runPathLoop reg phase urlPath ps

/-- `runMiddlewares(MiddlewareName, req, res, context)`.  The source derives
`urlPath` as `new URL(req.url, base).pathname`; the pathname is taken as the
input here.  Global hooks run first in registration order; if they all pass,
the path-scoped hooks run from the longest matching scope to the shortest. -/
def runMiddlewares (reg : MwRegistry) (phase : MiddlewareType) (urlPath : String) : RunResult :=
  match runHooks (reg.globalMiddlewares.get phase) with
  | .haltedFalse n => { cont := false, globalRan := n, pathRan := [], errorCalls := [] }
  | .haltedThrow n e =>
    { cont := false, globalRan := n, pathRan := [],
      errorCalls := if phase = .onError then [] else [(e, phase, none)] }
  | .passed n =>
    let sorted := sortByLenDesc (reg.pathMiddlewares.map (fun e => e.1))
    let r := runPathLoop reg phase urlPath sorted
    { cont := r.1, globalRan := n, pathRan := r.2.1, errorCalls := r.2.2 }

/-! ### Load balancer (utils/loadBalancer.ts) -/

/-- Worker statistics kept by the primary (`WorkerStats`).  The source stores
`load` as a float and also a `memoryUsage` record; only ordering comparisons
on `load`/`connections`/`lastUsed` are ever made, so numeric fields are
modelled as naturals and the memory record (never read by selection) is
omitted. -/
structure WorkerStats where
  pid : Nat
  load : Nat
  connections : Nat
  lastUsed : Nat
deriving DecidableEq

/-- The closure state of `createLoadBalancer`. -/
structure LBState where
  workers : List (Nat × WorkerStats)
  workerIds : List Nat
  currentWorkerIndex : Nat
  algorithm : String
  stickySessions : Bool
  sticky : List (String × Nat)
deriving DecidableEq

/-- `getRoundRobinWorker()`: advance the cyclic index by one, then return the
worker id at that index. -/
def getRoundRobinWorker (s : LBState) : Nat × LBState :=
  let idx := (s.currentWorkerIndex + 1) % s.workerIds.length
  (s.workerIds.getD idx 0, { s with currentWorkerIndex := idx })

/-- Loop of `getLeastConnectionsWorker`: tracks the minimum (`none` stands for
the initial `Infinity`) and the selected id. -/
def leastConnLoop (ws : List (Nat × WorkerStats)) : List Nat → Nat → Option Nat → Nat
  | [], sel, _ => sel
  | wid :: rest, sel, m =>
    match ws.lookup wid with
    | some st =>
      match m with
      | none => leastConnLoop ws rest wid (some st.connections)
      | some mc =>
        if st.connections < mc then leastConnLoop ws rest wid (some st.connections)
        else leastConnLoop ws rest sel m
    | none => leastConnLoop ws rest sel m

/-- `getLeastConnectionsWorker()`. -/
def getLeastConnectionsWorker (s : LBState) : Nat :=
  leastConnLoop s.workers s.workerIds (s.workerIds.getD 0 0) none

/-- Loop of `getLeastCpuWorker`. -/
def leastCpuLoop (ws : List (Nat × WorkerStats)) : List Nat → Nat → Option Nat → Nat
  | [], sel, _ => sel
  | wid :: rest, sel, m =>
    match ws.lookup wid with
    | some st =>
      match m with
      | none => leastCpuLoop ws rest wid (some st.load)
      | some mc =>
        if st.load < mc then leastCpuLoop ws rest wid (some st.load)
        else leastCpuLoop ws rest sel m
    | none => leastCpuLoop ws rest sel m

/-- `getLeastCpuWorker()`. -/
def getLeastCpuWorker (s : LBState) : Nat :=
  leastCpuLoop s.workers s.workerIds (s.workerIds.getD 0 0) none

/-- Loop of `getFastestResponseWorker` (oldest `lastUsed` wins). -/
def fastestLoop (ws : List (Nat × WorkerStats)) : List Nat → Nat → Option Nat → Nat
  | [], sel, _ => sel
  | wid :: rest, sel, m =>
    match ws.lookup wid with
    | some st =>
      match m with
      | none => fastestLoop ws rest wid (some st.lastUsed)
      | some mc =>
        if st.lastUsed < mc then fastestLoop ws rest wid (some st.lastUsed)
        else fastestLoop ws rest sel m
    | none => fastestLoop ws rest sel m

/-- `getFastestResponseWorker()`. -/
def getFastestResponseWorker (s : LBState) : Nat :=
  fastestLoop s.workers s.workerIds (s.workerIds.getD 0 0) none

/-- The `switch (state.options.algorithm)` of `getNextWorker`; the default
branch is round-robin. -/
def selectByAlgorithm (s : LBState) : Nat × LBState :=
  if s.algorithm == "round-robin" then getRoundRobinWorker s
  else if s.algorithm == "least-connections" then (getLeastConnectionsWorker s, s)
  else if s.algorithm == "least-cpu" then (getLeastCpuWorker s, s)
  else if s.algorithm == "fastest-response" then (getFastestResponseWorker s, s)
  else getRoundRobinWorker s

/-- The sticky-session assignment at the end of `getNextWorker`: store the
mapping and bulk-evict the oldest 1000 entries past 10000. -/
def stickyAssign (s : LBState) (clientIp : Option String) (sel : Nat) : LBState :=
  match clientIp with
  | some ip =>
    if s.stickySessions then
      let st := jsMapSet s.sticky ip sel
      { s with sticky := if st.length > 10000 then st.drop 1000 else st }
    else s
  | none => s

/-- `getNextWorker(clientIp?)`: `none` when no workers are registered; a valid
sticky mapping short-circuits; otherwise the configured algorithm selects and
the sticky table is updated. -/
def getNextWorker (s : LBState) (clientIp : Option String) : Option Nat × LBState :=
  if s.workerIds.length == 0 then (none, s)
  else
    match clientIp with
    | some ip =>
      if s.stickySessions && (s.sticky.lookup ip).isSome then
        match s.sticky.lookup ip with
        | some wid =>
          if wid != 0 && (s.workers.lookup wid).isSome then (some wid, s)
          else
            let s1 := { s with sticky := jsMapDelete s.sticky ip }
            let r := selectByAlgorithm s1
            (some r.1, stickyAssign r.2 clientIp r.1)
        | none =>
          let r := selectByAlgorithm s
          (some r.1, stickyAssign r.2 clientIp r.1)
      else
        let r := selectByAlgorithm s
        (some r.1, stickyAssign r.2 clientIp r.1)
    | none =>
      let r := selectByAlgorithm s
      (some r.1, stickyAssign r.2 clientIp r.1)

/-- `M` consecutive `getNextWorker` calls with no client identifier: the list
of selected worker ids and the final state. -/
def runCalls : LBState → Nat → List Nat × LBState
  | s, 0 => ([], s)
  | s, n + 1 =>
    match getNextWorker s none with
    | (some w, s1) =>
      let r := runCalls s1 n
      (w :: r.1, r.2)
    | (none, s1) =>
      let r := runCalls s1 n
      (r.1, r.2)

/-! ### Graceful shutdown (utils/gracefulShutdown.ts)

The `shutdown` closure is modelled as a discrete timeline of the external
effects it produces, parameterised over the environment: `T` is the configured
timeout, `closeDone` the instant the awaited `server.close` callback fires
(`none` when a connection keeps the server open forever), `connsAtClose` the
value of `connections.size` the code reads right after that await (by Node's
documented `server.close` contract the callback fires only once every tracked
connection has closed, so this is 0, but it is kept as a parameter so no
conclusion depends on it in the branch that matters), and `isWorker` whether
the process is a cluster worker.  The signal is received at instant 0. -/

inductive SdEvent where
  | beforeHookRan
  | serverCloseCalled
  | destroyTimerArmed (fireAt : Nat)
  | onShutdownRan (t : Nat)
  | procExit (code : Nat) (t : Nat)
deriving DecidableEq

/-- Timeline of the `shutdown(signal)` closure.  A re-entrant call while
`isShuttingDown` is already set returns immediately and produces nothing.
Otherwise: `beforeShutdown` runs, the force-exit timer is armed for instant
`T`, `server.close` is called (no new connections from here on) and awaited.
If the callback never fires, or fires at or after `T`, the force timer exits
the process with code 1 at `T` — the `timeout/2` destroy timer below is never
reached.  If the callback fires at `t < T`, the destroy timer is armed only
when `connections.size > 0` at that instant, then `onShutdown` runs, the force
timer is cleared, and a worker process exits with code 0. -/
def shutdownModel (isShuttingDown : Bool) (T : Nat) (closeDone : Option Nat)
    (connsAtClose : Nat) (isWorker : Bool) : List SdEvent :=
  if isShuttingDown then []
  else
    [.beforeHookRan, .serverCloseCalled] ++
      match closeDone with
      | none => [.procExit 1 T]
      | some t =>
        if T ≤ t then [.procExit 1 T]
        else
          (if connsAtClose > 0 then [.destroyTimerArmed (t + T / 2)] else []) ++
            [.onShutdownRan t] ++ (if isWorker then [.procExit 0 t] else [])

/-! ### Per-request timeout (utils/timeout.ts and adapters/node.ts)

`createTimeoutMiddleware` returns a middleware that arms a per-response timer
(guarded by `timeoutMap.has(res)`, so duplicate copies are no-ops), marks the
request timed out and sends a 408 when the timer fires before headers went
out, and clears the timer on the response's `finish`/`close` events.

In adapters/node.ts the request listener first runs the `beforeRequest` phase
for the current request and only afterwards calls
`addMiddleware("beforeRequest", timeoutMiddleware)` (lines 158-160), so the
copy registered during request k is first executed during request k+1's
`beforeRequest` phase. -/

/-- Response-side state observed by the timeout middleware. -/
structure ResState where
  headersSent : Bool
  timerArmed : Bool
  timedOut : Bool
  statusCode : Option Nat
deriving DecidableEq

/-- A fresh response: nothing sent, no timer, not timed out. -/
def freshRes : ResState :=
  { headersSent := false, timerArmed := false, timedOut := false, statusCode := none }

/-- Running one copy of `timeoutMiddleware(req, res)`: the `timeoutMap.has(res)`
guard makes it a no-op when a timer is already armed for this response. -/
def timeoutMiddlewareRun (rs : ResState) : ResState :=
  if rs.timerArmed then rs else { rs with timerArmed := true }

/-- The timer callback: mark the request timed out and send the 408 response
only when headers have not been sent yet; the map entry is dropped. -/
def timeoutFire (rs : ResState) : ResState :=
  if rs.headersSent then
    { rs with timedOut := true, timerArmed := false }
  else
    { rs with timedOut := true, timerArmed := false, headersSent := true, statusCode := some 408 }

/-- The `cleanup` handler bound to the response's finish/close events: clear
the pending timer. -/
def timeoutCleanup (rs : ResState) : ResState :=
  { rs with timerArmed := false }

/-- Run the timeout copies present in the global `beforeRequest` list over a
response (the phase runs them in registration order). -/
def applyTimeoutCopies : Nat → ResState → ResState
  | 0, rs => rs
  | n + 1, rs => applyTimeoutCopies n (timeoutMiddlewareRun rs)

/-- One `requestListener` dispatch as far as the timeout timer is concerned:
the `beforeRequest` phase runs the currently registered timeout-middleware
copies over the fresh response, and afterwards the listener registers one more
copy (adapters/node.ts lines 148-160).  Returns whether a timer was armed for
this request, paired with the new copy count. -/
def listenerDispatch (copies : Nat) : Bool × Nat :=
  ((applyTimeoutCopies copies freshRes).timerArmed, copies + 1)

/-- Timer-armed flags of the first `n` requests dispatched after server start
(the global middleware list starts with no timeout copies). -/
def dispatchArmedFlags : Nat → Nat → List Bool
  | 0, _ => []
  | n + 1, copies =>
    let d := listenerDispatch copies
    d.1 :: dispatchArmedFlags n d.2

/-- Convenience: armed flags of the first `n` requests from a fresh server. -/
def requestArmedFlags (n : Nat) : List Bool :=
  dispatchArmedFlags n 0

/-- A middleware hook that neither throws nor returns strict `false` (so the
phase continues past it). -/
def HookPasses (h : HookSpec) : Prop :=
  ∃ v, h = .ret v ∧ v ≠ .vFalse

/-! ## Helper lemmas -/

theorem jsMapSet_of_none [BEq α] (m : List (α × β)) (k : α) (v : β)
    (h : m.lookup k = none) : jsMapSet m k v = m ++ [(k, v)] := by
  unfold jsMapSet
  rw [h]
  rfl

theorem lookup_map_replace [BEq α] [LawfulBEq α] (m : List (α × β)) (k : α) (v : β)
    (h : (m.lookup k).isSome) :
    (m.map (fun e => if e.1 == k then (k, v) else e)).lookup k = some v := by
  induction m with
  | nil => simp at h
  | cons e t ih =>
    obtain ⟨k', b⟩ := e
    by_cases hkk : k' = k
    · subst hkk
      simp
    · have h1 : (k' == k) = false := beq_eq_false_iff_ne.mpr hkk
      have h2 : (k == k') = false := beq_eq_false_iff_ne.mpr (Ne.symm hkk)
      rw [List.lookup_cons] at h
      simp only [h2] at h
      simp only [List.map_cons, h1, Bool.false_eq_true, if_neg, not_false_iff]
      rw [List.lookup_cons]
      simp only [h2]
      exact ih h

theorem jsMapSet_lookup_self [BEq α] [LawfulBEq α] (m : List (α × β)) (k : α) (v : β) :
    (jsMapSet m k v).lookup k = some v := by
  unfold jsMapSet
  split
  case isTrue hs => exact lookup_map_replace m k v hs
  case isFalse hs =>
    rw [List.lookup_append]
    have hnone : m.lookup k = none := by
      cases h : m.lookup k with
      | none => rfl
      | some v' => exact absurd (by rw [h]; rfl) hs
    rw [hnone]
    simp

theorem lookup_drop_of_none [BEq α] [LawfulBEq α] (m : List (α × β)) (k : α) (n : Nat)
    (h : m.lookup k = none) : (m.drop n).lookup k = none :=
  (List.drop_sublist n m).lookup_eq_none h

theorem lookup_append_singleton_of_none [BEq α] [LawfulBEq α] (m : List (α × β)) (k : α) (v : β)
    (h : m.lookup k = none) : (m ++ [(k, v)]).lookup k = some v := by
  rw [List.lookup_append, h]
  simp

theorem dropWhile_idem (p : α → Bool) (l : List α) :
    (l.dropWhile p).dropWhile p = l.dropWhile p := by
  induction l with
  | nil => rfl
  | cons c t ih =>
    by_cases h : p c
    · simp [List.dropWhile_cons, h, ih]
    · simp [List.dropWhile_cons, h]

theorem stripTrailingSlashes_idem (s : String) :
    stripTrailingSlashes (stripTrailingSlashes s) = stripTrailingSlashes s := by
  unfold stripTrailingSlashes
  simp [List.reverse_reverse, dropWhile_idem]

theorem normalizeUrl_idem (u : String) : normalizeUrl (normalizeUrl u) = normalizeUrl u := by
  unfold normalizeUrl
  by_cases h : u == "/"
  · simp [h]
  · simp only [h, Bool.false_eq_true, if_neg, not_false_iff]
    by_cases h2 : stripTrailingSlashes u == "/"
    · simp only [h2, if_pos]
      exact (beq_iff_eq.mp h2).symm
    · simp only [h2, Bool.false_eq_true, if_neg, not_false_iff]
      exact stripTrailingSlashes_idem u

theorem findRoute_of_cache_hit (r : Router H) (m u : String) (v : RouteMatchResult H)
    (h : r.cachedRoutes.lookup (m ++ ":" ++ normalizeUrl u) = some v) :
    r.findRoute m u = (v, r) := by
  simp only [Router.findRoute, h]

theorem findRoute_state_cases (s : Router H) (m u : String) :
    (s.findRoute m u).2.cachedRoutes.lookup (m ++ ":" ++ normalizeUrl u) =
      some (s.findRoute m u).1 ∨ (s.findRoute m u).2 = s := by
  cases hc : s.cachedRoutes.lookup (m ++ ":" ++ normalizeUrl u) with
  | some v => right; rw [findRoute_of_cache_hit s m u v hc]
  | none =>
    simp only [Router.findRoute, hc]
    split
    · split
      · left
        simpa using jsMapSet_lookup_self s.cachedRoutes (m ++ ":" ++ normalizeUrl u) _
      · split
        · left
          rw [jsMapSet_of_none _ _ _ hc]
          split
          case isTrue hlen =>
            have hle : 100 ≤ s.cachedRoutes.length := by
              simp [List.length_append] at hlen
              omega
            rw [List.drop_append_of_le_length hle, List.lookup_append,
              lookup_drop_of_none _ _ _ hc]
            simp
          case isFalse hlen =>
            exact lookup_append_singleton_of_none _ _ _ hc
        · right; rfl
    · split
      · left
        rw [jsMapSet_of_none _ _ _ hc]
        split
        case isTrue hlen =>
          have hle : 100 ≤ s.cachedRoutes.length := by
            simp [List.length_append] at hlen
            omega
          rw [List.drop_append_of_le_length hle, List.lookup_append,
            lookup_drop_of_none _ _ _ hc]
          simp
        case isFalse hlen =>
          exact lookup_append_singleton_of_none _ _ _ hc
      · right; rfl

theorem scanl_getElem?_eq_foldl (f : β → α → β) :
    ∀ (l : List α) (s : β) (k : Nat), k ≤ l.length →
      (List.scanl f s l)[k]? = some ((l.take k).foldl f s) := by
  intro l
  induction l with
  | nil =>
    intro s k hk
    have hk0 : k = 0 := by simpa using hk
    subst hk0
    simp [List.scanl_nil]
  | cons a t ih =>
    intro s k hk
    rw [List.scanl_cons]
    cases k with
    | zero => simp
    | succ k =>
      simp only [List.singleton_append, List.getElem?_cons_succ, List.take_succ_cons,
        List.foldl_cons]
      exact ih (f s a) k (by simpa using hk)

theorem loadRoutes_eq_loadList (r : Router H) (L : List (String × String × H)) :
    r.loadRoutes L = loadList L := by
  unfold Router.loadRoutes reloadScript loadList
  rw [List.foldl_cons, List.foldl_map]
  rfl

theorem findRouteRecursive_createNode (segs : List String) (m : String)
    (ps : List (String × String)) :
    findRouteRecursive (createNode (H := H)) segs m ps = none := by
  cases segs with
  | nil =>
    simp [findRouteRecursive, createNode, collectHandlers, availableFallback,
      availableMethodsOf, RouteNode.handlers, RouteNode.paramChild, RouteNode.isEndpoint]
  | cons a t =>
    simp [findRouteRecursive, createNode, RouteNode.staticChildren, RouteNode.paramChild,
      RouteNode.wildcardHandler]

theorem findRoute_new (m u : String) :
    (Router.new (H := H)).findRoute m u =
      ({ handlers := [], params := [], allowedMethods := none }, Router.new) := by
  simp [Router.findRoute, Router.new, Router.getAllowedMethods, findRouteRecursive_createNode,
    httpMethods]

/-- C1 (amended): `loadRoutes` does not build a fresh table and swap it in at
the end; it resets the live table and cache in its synchronous prologue and
then inserts routes one `addRoute` at a time during the asynchronous scan.
Consequently the router state observable after the reset and after the first
`k` insertions is exactly the table containing only those `k` routes —
independent of the old table — so an in-flight `findRoute` can see a
partially-populated (initially empty) table. -/
theorem c1_loadRoutes_incremental_rebuild (H : Type) (r : Router H)
    (L : List (String × String × H)) (k : Nat) (hk : k ≤ L.length) :
    (reloadObservables r L)[k + 1]? = some (loadList (L.take k)) := by
  unfold reloadObservables reloadScript
  rw [scanl_getElem?_eq_foldl]
  · rw [List.take_succ_cons, List.foldl_cons, ← List.map_take, List.foldl_map]
    rfl
  · simpa using hk

/-- Witness for C1: in a reload rediscovering the single route `GET /a`, the
observable state right after the reset step is the empty table. -/
theorem c1_witness :
    (reloadObservables (Router.new.addRoute "GET" "/a" (0 : Nat)) [("GET", "/a", 0)])[0 + 1]? =
      some (loadList ([("GET", "/a", (0 : Nat))].take 0)) :=
  c1_loadRoutes_incremental_rebuild Nat (Router.new.addRoute "GET" "/a" 0)
    [("GET", "/a", 0)] 0 (by decide)

/-- Counterexample for C1 as stated: reloading a router that serves `GET /a`
with a scan that rediscovers exactly that route.  The claim says every
`findRoute` issued during the reload sees the complete old table's result or
the complete new table's result; the state between the reset and the
re-insertion answers with an empty result, which is neither. -/
theorem c1_counterexample :
    ¬ (∀ st ∈ reloadObservables (Router.new.addRoute "GET" "/a" (0 : Nat)) [("GET", "/a", 0)],
        (st.findRoute "GET" "/a").1 =
            ((Router.new.addRoute "GET" "/a" (0 : Nat)).findRoute "GET" "/a").1 ∨
          (st.findRoute "GET" "/a").1 =
            (((Router.new.addRoute "GET" "/a" (0 : Nat)).loadRoutes
                [("GET", "/a", 0)]).findRoute "GET" "/a").1) := by
  decide

/-- C6: (1) a second `findRoute` for the same `(method, path)` with no
intervening mutation returns the result of the first call (served from the
cache when the first call stored it, recomputed identically otherwise);
(2) the table produced by a reload is independent of the previous router
state, cache included; (3) after reloading to an empty route set nothing is
matchable. -/
theorem c6_cache_correctness :
    (∀ (H : Type) (s : Router H) (m u : String),
        ((s.findRoute m u).2.findRoute m u).1 = (s.findRoute m u).1) ∧
    (∀ (H : Type) (s : Router H) (L : List (String × String × H)) (m u : String),
        (s.loadRoutes L).findRoute m u = ((Router.new (H := H)).loadRoutes L).findRoute m u) ∧
    (∀ (H : Type) (s : Router H) (m u : String),
        ((s.loadRoutes []).findRoute m u).1 =
          { handlers := [], params := [], allowedMethods := none }) := by
  refine ⟨?_, ?_, ?_⟩
  · intro H s m u
    rcases findRoute_state_cases s m u with h | h
    · rw [findRoute_of_cache_hit _ m u _ h]
    · rw [h]
  · intro H s L m u
    rw [loadRoutes_eq_loadList, loadRoutes_eq_loadList]
  · intro H s m u
    rw [loadRoutes_eq_loadList]
    show ((Router.new (H := H)).findRoute m u).1 = _
    rw [findRoute_new]

/-- C3 (amended): a route registered only for GET serves HEAD via the GET
fallback, and a POST on it is method-not-allowed — but `getAllowedMethods`
probes every method through the same fallback, so the reported list is
`["GET", "HEAD"]`, not `["GET"]`. -/
theorem c3_method_fallback (H : Type) (h : H) :
    (findRoute (Router.new.addRoute "GET" "/api/methods" h) "/api/methods" "HEAD").1 =
      .routeHandler h [] ∧
    (findRoute (Router.new.addRoute "GET" "/api/methods" h) "/api/methods" "POST").1 =
      .routeErr "Method Not Allowed" 405 ["GET", "HEAD"] :=
  ⟨rfl, rfl⟩

/-- Counterexample for C3 as stated: on a GET-only route, a POST yields
`allowedMethods = ["GET", "HEAD"]`, which differs from the claimed
`["GET"]`. -/
theorem c3_counterexample :
    (findRoute (Router.new.addRoute "GET" "/api/methods" (0 : Nat)) "/api/methods" "POST").1 =
      .routeErr "Method Not Allowed" 405 ["GET", "HEAD"] ∧
    FindRouteResult.routeErr (H := Nat) "Method Not Allowed" 405 ["GET", "HEAD"] ≠
      .routeErr "Method Not Allowed" 405 ["GET"] := by
  exact ⟨rfl, by decide⟩

/-- C4 (amended): `findRoute` normalizes only trailing slashes (keeping the
root `/`), so a URL and its trailing-slash-stripped form give the same call
result; query strings are not stripped anywhere on the node path — the query
survives into the matched path, so a URL with a query misses its route. -/
theorem c4_normalization :
    (∀ (H : Type) (r : Router H) (m u : String),
        r.findRoute m u = r.findRoute m (normalizeUrl u)) ∧
    (∀ (H : Type) (h : H),
        (findRoute (Router.new.addRoute "GET" "/api/methods" h) "/api/methods/" "GET").1 =
          .routeHandler h [] ∧
        (findRoute (Router.new.addRoute "GET" "/api/methods" h) "/api/methods" "GET").1 =
          .routeHandler h [] ∧
        (findRoute (Router.new.addRoute "GET" "/api/methods" h) "/api/methods?x=1" "GET").1 =
          .routeNull) := by
  constructor
  · intro H r m u
    unfold Router.findRoute
    rw [normalizeUrl_idem]
  · intro H h
    exact ⟨rfl, rfl, rfl⟩

/-- Counterexample for C4 as stated: `/api/methods?x=1` does not resolve like
`/api/methods` — the query string is part of the matched path and the lookup
misses. -/
theorem c4_counterexample :
    (findRoute (Router.new.addRoute "GET" "/api/methods" (7 : Nat)) "/api/methods?x=1" "GET").1 ≠
      (findRoute (Router.new.addRoute "GET" "/api/methods" (7 : Nat)) "/api/methods" "GET").1 := by
  decide

/-- C10: at a wildcard node the HEAD-to-GET fallback does not apply: a HEAD
request consumed by a GET-only wildcard yields method-not-allowed listing the
wildcard's registered methods (`["GET"]`), while at an ordinary endpoint node
the same HEAD request succeeds with the GET handler. -/
theorem c10_wildcard_no_head_fallback (H : Type) (h : H) :
    (findRoute (Router.new.addRoute "GET" "/files/*" h) "/files/a/b/c" "HEAD").1 =
      .routeErr "Method Not Allowed" 405 ["GET"] ∧
    (findRoute (Router.new.addRoute "GET" "/files" h) "/files" "HEAD").1 =
      .routeHandler h [] :=
  ⟨rfl, rfl⟩

/-- C5: at every trie node the matcher tries the exact static child first,
then the parameter child (binding the segment), then the wildcard: (1) a
successful static descent is returned outright; (2) the parameter descent is
consulted only when the static branch is absent or fails, and its success is
returned; (3) hence with `/api/methods` (static) and `/api/[model]` (dynamic)
registered together, `["api", "methods"]` resolves to the static handler and
any other segment falls through to the dynamic route with the segment bound
as `model`. -/
theorem c5_static_precedence :
    (∀ (H : Type) (node : RouteNode H) (seg : String) (rest : List String) (method : String)
        (params : List (String × String)) (child : RouteNode H) (res : RouteMatchResult H),
        node.staticChildren.lookup seg = some child →
        findRouteRecursive child rest method params = some res →
        findRouteRecursive node (seg :: rest) method params = some res) ∧
    (∀ (H : Type) (node : RouteNode H) (seg : String) (rest : List String) (method : String)
        (params : List (String × String)) (nm : String) (child : RouteNode H) (opt : Bool)
        (res : RouteMatchResult H),
        (∀ c, node.staticChildren.lookup seg = some c →
          findRouteRecursive c rest method params = none) →
        node.paramChild = some (nm, child, opt) →
        findRouteRecursive child rest method (jsRecordSet params nm seg) = some res →
        findRouteRecursive node (seg :: rest) method params = some res) ∧
    (∀ (H : Type) (h1 h2 : H) (seg : String), seg ≠ "methods" →
        findRouteRecursive
            ((Router.new.addRoute "GET" "/api/methods" h1).addRoute "GET" "/api/[model]" h2).rootNode
            ["api", "methods"] "GET" [] =
          some { handlers := [h1], params := [], allowedMethods := none } ∧
        findRouteRecursive
            ((Router.new.addRoute "GET" "/api/methods" h1).addRoute "GET" "/api/[model]" h2).rootNode
            ["api", seg] "GET" [] =
          some { handlers := [h2], params := [("model", seg)], allowedMethods := none }) := by
  refine ⟨?_, ?_, ?_⟩
  · intro H node seg rest method params child res hlook hrec
    simp only [findRouteRecursive, hlook, hrec]
  · intro H node seg rest method params nm child opt res hstat hpc hrec
    cases hl : node.staticChildren.lookup seg with
    | none => simp only [findRouteRecursive, hl, hpc, hrec]
    | some c =>
      have hc := hstat c hl
      simp only [findRouteRecursive, hl, hc, hpc, hrec]
  · intro H h1 h2 seg hseg
    have hbeq : (seg == "methods") = false := beq_eq_false_iff_ne.mpr hseg
    constructor
    · rfl
    · have hroot :
        ((Router.new.addRoute "GET" "/api/methods" h1).addRoute "GET" "/api/[model]" h2).rootNode =
          RouteNode.mk [] [("api", RouteNode.mk []
            [("methods", RouteNode.mk [("GET", [h1])] [] none none true)]
            (some ("model", RouteNode.mk [("GET", [h2])] [] none none true, false))
            none false)] none none false := rfl
      rw [hroot]
      simp [findRouteRecursive, RouteNode.staticChildren, RouteNode.paramChild,
        RouteNode.wildcardHandler, RouteNode.handlers, RouteNode.isEndpoint,
        List.lookup_cons, hbeq, jsRecordSet, collectHandlers]

/-- Witness for C5: the spec's own example, with handlers 1 and 2 and the
dynamic segment "widgets". -/
theorem c5_witness :
    findRouteRecursive
        ((Router.new.addRoute "GET" "/api/methods" (1 : Nat)).addRoute "GET" "/api/[model]" 2).rootNode
        ["api", "methods"] "GET" [] =
      some { handlers := [1], params := [], allowedMethods := none } ∧
    findRouteRecursive
        ((Router.new.addRoute "GET" "/api/methods" (1 : Nat)).addRoute "GET" "/api/[model]" 2).rootNode
        ["api", "widgets"] "GET" [] =
      some { handlers := [2], params := [("model", "widgets")], allowedMethods := none } :=
  c5_static_precedence.2.2 Nat 1 2 "widgets" (by decide)

theorem HooksExit.addCount_zero (x : HooksExit) : x.addCount 0 = x := by
  cases x <;> rfl

theorem runHooks_append_passes (pre rest : List HookSpec) (hp : ∀ h ∈ pre, HookPasses h) :
    runHooks (pre ++ rest) = (runHooks rest).addCount pre.length := by
  induction pre with
  | nil => simp [HooksExit.addCount_zero]
  | cons a t ih =>
    obtain ⟨v, rfl, hv⟩ := hp a (List.mem_cons_self a t)
    simp only [List.cons_append, runHooks, if_neg hv, List.append_eq]
    rw [ih (fun h hh => hp h (List.mem_cons_of_mem _ hh))]
    cases runHooks rest <;> simp [HooksExit.addCount] <;> omega

theorem runPathLoop_congr (reg reg' : MwRegistry) (phase : MiddlewareType) (url : String)
    (hpm : reg.pathMiddlewares = reg'.pathMiddlewares) :
    ∀ ps, runPathLoop reg phase url ps = runPathLoop reg' phase url ps := by
  intro ps
  induction ps with
  | nil => rfl
  | cons p t ih => simp only [runPathLoop, hpm, ih]

/-- C2 (amended): (1) a hook returning strict `false` stops the remaining
hooks of the phase and `runMiddlewares` reports false without touching the
`onError` phase; (2) a hook that throws stops the remaining hooks and, for
`beforeRequest`/`afterRequest` (any non-`onError` phase), triggers the
`onError` phase with the `(error, phase)` context before reporting false;
(3) any other return value — falsy or not — does not stop the chain: the run
proceeds exactly as if the hook were absent, with one more hook executed;
(4) the same strict-`false`/throw semantics hold for path-scoped hooks, the
throw context additionally carrying the scope path. -/
theorem c2_short_circuit :
    (∀ (reg : MwRegistry) (phase : MiddlewareType) (url : String) (pre rest : List HookSpec),
        (∀ h ∈ pre, HookPasses h) →
        reg.globalMiddlewares.get phase = pre ++ .ret .vFalse :: rest →
        runMiddlewares reg phase url =
          { cont := false, globalRan := pre.length + 1, pathRan := [], errorCalls := [] }) ∧
    (∀ (reg : MwRegistry) (phase : MiddlewareType) (url : String) (pre rest : List HookSpec)
        (e : Nat),
        phase ≠ .onError →
        (∀ h ∈ pre, HookPasses h) →
        reg.globalMiddlewares.get phase = pre ++ .throwErr e :: rest →
        runMiddlewares reg phase url =
          { cont := false, globalRan := pre.length + 1, pathRan := [],
            errorCalls := [(e, phase, none)] }) ∧
    (∀ (reg reg' : MwRegistry) (phase : MiddlewareType) (url : String)
        (g1 g2 : List HookSpec) (v : JSVal),
        v ≠ .vFalse →
        (∀ h ∈ g1, HookPasses h) →
        reg.globalMiddlewares.get phase = g1 ++ .ret v :: g2 →
        reg'.globalMiddlewares.get phase = g1 ++ g2 →
        reg.pathMiddlewares = reg'.pathMiddlewares →
        (runMiddlewares reg phase url).cont = (runMiddlewares reg' phase url).cont ∧
        (runMiddlewares reg phase url).globalRan =
          (runMiddlewares reg' phase url).globalRan + 1 ∧
        (runMiddlewares reg phase url).pathRan = (runMiddlewares reg' phase url).pathRan ∧
        (runMiddlewares reg phase url).errorCalls =
          (runMiddlewares reg' phase url).errorCalls) ∧
    (∀ (reg : MwRegistry) (phase : MiddlewareType) (url p : String) (pm : PhaseHooks)
        (pre rest : List HookSpec) (e : Nat),
        phase ≠ .onError →
        reg.globalMiddlewares.get phase = [] →
        reg.pathMiddlewares = [(p, pm)] →
        pm.get phase = pre ++ .throwErr e :: rest →
        isPathApplicable p url = true →
        (∀ h ∈ pre, HookPasses h) →
        runMiddlewares reg phase url =
          { cont := false, globalRan := 0, pathRan := [(p, pre.length + 1)],
            errorCalls := [(e, phase, some p)] }) := by
  refine ⟨?_, ?_, ?_, ?_⟩
  · intro reg phase url pre rest hp hg
    simp only [runMiddlewares, hg, runHooks_append_passes pre _ hp, runHooks, if_pos,
      HooksExit.addCount]
    simp [Nat.add_comm]
  · intro reg phase url pre rest e hph hp hg
    simp only [runMiddlewares, hg, runHooks_append_passes pre _ hp, runHooks,
      HooksExit.addCount]
    simp [Nat.add_comm, hph]
  · intro reg reg' phase url g1 g2 v hv hp hg hg' hpm
    have hrw : runHooks (reg.globalMiddlewares.get phase) =
        ((runHooks g2).addCount 1).addCount g1.length := by
      rw [hg, runHooks_append_passes g1 _ hp]
      simp only [runHooks, if_neg hv]
    have hrw' : runHooks (reg'.globalMiddlewares.get phase) =
        (runHooks g2).addCount g1.length := by
      rw [hg', runHooks_append_passes g1 _ hp]
    simp only [runMiddlewares, hrw, hrw', hpm, runPathLoop_congr reg reg' phase url hpm]
    cases runHooks g2 <;> simp [HooksExit.addCount] <;> omega
  · intro reg phase url p pm pre rest e hph hg hpm hpmget happ hp
    simp only [runMiddlewares, hg, runHooks, hpm]
    have hsort : sortByLenDesc (List.map (fun e => e.1) [(p, pm)]) = [p] := rfl
    rw [hsort]
    simp only [runPathLoop, happ, if_pos, hpm, List.lookup_cons_self, Option.getD_some,
      hpmget, runHooks_append_passes pre _ hp, runHooks, HooksExit.addCount]
    simp [Nat.add_comm, hph]

/-- Witness for C2: a passing hook followed by a strict-`false` hook halts the
phase after two executed hooks with no `onError` involvement. -/
theorem c2_witness :
    runMiddlewares
        { globalMiddlewares := { beforeRequest := [.ret .vTrue, .ret .vFalse, .ret .vTrue] },
          pathMiddlewares := [] } .beforeRequest "/x" =
      { cont := false, globalRan := 2, pathRan := [], errorCalls := [] } :=
  c2_short_circuit.1
    { globalMiddlewares := { beforeRequest := [.ret .vTrue, .ret .vFalse, .ret .vTrue] },
      pathMiddlewares := [] } .beforeRequest "/x" [.ret .vTrue] [.ret .vTrue]
    (by intro h hh
        simp only [List.mem_singleton] at hh
        exact ⟨.vTrue, hh, by decide⟩)
    rfl

/-- Counterexample for C2 as stated: `undefined` is falsy but does not stop
the chain (both global hooks execute), and a strict `false` return reports
"do not continue" without triggering the `onError` phase. -/
theorem c2_counterexample :
    JSVal.isFalsy .vUndefined = true ∧
    (runMiddlewares
        { globalMiddlewares := { beforeRequest := [.ret .vUndefined, .ret .vTrue] },
          pathMiddlewares := [] } .beforeRequest "/x").globalRan = 2 ∧
    (runMiddlewares
        { globalMiddlewares := { beforeRequest := [.ret .vFalse], onError := [.ret .vTrue] },
          pathMiddlewares := [] } .beforeRequest "/x").cont = false ∧
    (runMiddlewares
        { globalMiddlewares := { beforeRequest := [.ret .vFalse], onError := [.ret .vTrue] },
          pathMiddlewares := [] } .beforeRequest "/x").errorCalls = [] := by
  decide

theorem countP_range_window (N b i : Nat) (hN : 0 < N) (hi : i < N) :
    (List.range N).countP (fun k => (b + k) % N == i) = 1 := by
  have hb : b % N < N := Nat.mod_lt _ hN
  have hble : b % N ≤ b := Nat.mod_le b N
  have hk0lt : (i + N - b % N) % N < N := Nat.mod_lt _ hN
  have hkey : (b + (i + N - b % N) % N) % N = i := by
    have h1 : (b + (i + N - b % N) % N) % N = (b + (i + N - b % N)) % N := by
      have := Nat.mod_modEq (i + N - b % N) N
      exact Nat.ModEq.add_left b this
    have h2 : b + (i + N - b % N) = (b - b % N) + (i + N) := by omega
    have h3 : ∃ c, b - b % N = c * N := by
      refine ⟨b / N, ?_⟩
      have hdm := Nat.div_add_mod b N
      rw [Nat.mul_comm] at hdm
      omega
    obtain ⟨c, hc⟩ := h3
    rw [h1, h2, hc, Nat.add_comm (c * N) (i + N), Nat.add_mul_mod_self_right,
      Nat.add_mod_right]
    exact Nat.mod_eq_of_lt hi
  have huniq : ∀ k, k < N → (((b + k) % N == i) = true ↔ k = (i + N - b % N) % N) := by
    intro k hk
    constructor
    · intro hbk
      have hbk' : (b + k) % N = i := by simpa using hbk
      have heq2 : (b + k) % N = (b + (i + N - b % N) % N) % N := by rw [hbk', hkey]
      have hmod : k ≡ (i + N - b % N) % N [MOD N] := Nat.ModEq.add_left_cancel' b heq2
      have := hmod
      unfold Nat.ModEq at this
      rw [Nat.mod_eq_of_lt hk, Nat.mod_eq_of_lt hk0lt] at this
      exact this
    · intro hkk
      subst hkk
      simpa using hkey
  have hcongr : (List.range N).countP (fun k => (b + k) % N == i) =
      (List.range N).countP (fun k => k == (i + N - b % N) % N) := by
    apply List.countP_congr
    intro k hk
    rw [List.mem_range] at hk
    exact (huniq k hk).trans beq_iff_eq.symm
  rw [hcongr, ← List.count_eq_countP]
  exact List.count_eq_one_of_mem (List.nodup_range N) (List.mem_range.mpr hk0lt)

theorem countP_range_mono (p : Nat → Bool) (M M' : Nat) (h : M ≤ M') :
    (List.range M).countP p ≤ (List.range M').countP p := by
  have hsplit : List.range M' = List.range M ++ (List.range (M' - M)).map (M + ·) := by
    conv_lhs => rw [show M' = M + (M' - M) by omega]
    rw [List.range_add]
  rw [hsplit, List.countP_append]
  omega

theorem countP_range_mod_bounds (N a i M : Nat) (hN : 0 < N) (hi : i < N) :
    M / N ≤ (List.range M).countP (fun k => (a + k) % N == i) ∧
    (List.range M).countP (fun k => (a + k) % N == i) ≤ (M + N - 1) / N := by
  induction M using Nat.strong_induction_on with
  | _ M ih =>
    by_cases hM : M < N
    · constructor
      · rw [Nat.div_eq_of_lt hM]
        exact Nat.zero_le _
      · have h1 : (List.range M).countP (fun k => (a + k) % N == i) ≤
            (List.range N).countP (fun k => (a + k) % N == i) :=
          countP_range_mono _ _ _ (le_of_lt hM)
        rw [countP_range_window N a i hN hi] at h1
        rcases Nat.eq_zero_or_pos M with h0 | h0
        · subst h0; simp
        · have h2 : 1 ≤ (M + N - 1) / N := by
            rw [Nat.le_div_iff_mul_le hN]
            omega
          omega
    · push_neg at hM
      have hMN : M - N < M := by omega
      obtain ⟨hlo, hhi⟩ := ih (M - N) hMN
      have hcomp : ((fun k => (a + k) % N == i) ∘ (fun x => (M - N) + x)) =
          (fun k => ((a + (M - N)) + k) % N == i) := by
        funext x
        simp [Function.comp, Nat.add_assoc]
      have hsplit : (List.range M).countP (fun k => (a + k) % N == i) =
          (List.range (M - N)).countP (fun k => (a + k) % N == i) + 1 := by
        conv_lhs => rw [show M = (M - N) + N by omega, List.range_add]
        rw [List.countP_append, List.countP_map, hcomp,
          countP_range_window N (a + (M - N)) i hN hi]
      constructor
      · rw [hsplit]
        have hdiv : M / N = (M - N) / N + 1 := by
          conv_lhs => rw [show M = (M - N) + N by omega]
          rw [Nat.add_div_right _ hN]
        omega
      · rw [hsplit]
        have hdiv : (M + N - 1) / N = ((M - N) + N - 1) / N + 1 := by
          have h1 : M + N - 1 = ((M - N) + N - 1) + N := by omega
          rw [h1, Nat.add_div_right _ hN]
        omega

theorem getNextWorker_rr (s : LBState) (halg : s.algorithm = "round-robin")
    (_hst : s.stickySessions = false) (hne : s.workerIds.length ≠ 0) :
    getNextWorker s none =
      (some (s.workerIds.getD ((s.currentWorkerIndex + 1) % s.workerIds.length) 0),
        { s with currentWorkerIndex := (s.currentWorkerIndex + 1) % s.workerIds.length }) := by
  have h0 : (s.workerIds.length == 0) = false := by simpa using hne
  simp [getNextWorker, h0, selectByAlgorithm, halg, getRoundRobinWorker, stickyAssign]

theorem runCalls_rr (s : LBState) (M : Nat) (halg : s.algorithm = "round-robin")
    (hst : s.stickySessions = false) (hne : s.workerIds.length ≠ 0) :
    (runCalls s M).1 = (List.range M).map
      (fun k => s.workerIds.getD ((s.currentWorkerIndex + 1 + k) % s.workerIds.length) 0) := by
  induction M generalizing s with
  | zero => simp [runCalls]
  | succ M ih =>
    simp only [runCalls, getNextWorker_rr s halg hst hne]
    have ih' := ih { s with currentWorkerIndex := (s.currentWorkerIndex + 1) % s.workerIds.length }
      halg hst hne
    simp only at ih'
    rw [ih', List.range_succ_eq_map, List.map_cons, List.map_map]
    refine congrArg₂ List.cons ?_ ?_
    · rw [Nat.add_zero]
    · apply List.map_congr_left
      intro k _
      simp only [Function.comp]
      congr 1
      rw [Nat.add_assoc ((s.currentWorkerIndex + 1) % s.workerIds.length) 1 k,
        Nat.mod_add_mod]
      congr 1
      omega

theorem count_map_getD (ids : List Nat) (g : Nat → Nat) (M i : Nat)
    (hnd : ids.Nodup) (hi : i < ids.length) (hg : ∀ k, g k < ids.length) :
    ((List.range M).map (fun k => ids.getD (g k) 0)).count (ids.getD i 0) =
      (List.range M).countP (fun k => g k == i) := by
  rw [List.count_eq_countP, List.countP_map]
  apply List.countP_congr
  intro k _
  simp only [Function.comp]
  have h1 : ids.getD (g k) 0 = ids.get ⟨g k, hg k⟩ := by
    rw [List.getD_eq_getElem?_getD, List.getElem?_eq_getElem (hg k), Option.getD_some]
    rfl
  have h2 : ids.getD i 0 = ids.get ⟨i, hi⟩ := by
    rw [List.getD_eq_getElem?_getD, List.getElem?_eq_getElem hi, Option.getD_some]
    rfl
  rw [h1, h2]
  constructor
  · intro hb
    have := (hnd.get_inj_iff).mp (beq_iff_eq.mp hb)
    exact beq_iff_eq.mpr (congrArg Fin.val this)
  · intro hb
    have : (⟨g k, hg k⟩ : Fin ids.length) = ⟨i, hi⟩ := Fin.ext (beq_iff_eq.mp hb)
    exact beq_iff_eq.mpr ((hnd.get_inj_iff).mpr this)

/-- C7: with the round-robin algorithm, sticky sessions off and `N` distinct
registered workers, `M` consecutive `getNextWorker` calls select each worker
between `M / N` and `(M + N - 1) / N` (that is, `⌈M / N⌉`) times: every worker
is within one call of an equal share, the index advancing cyclically by one
per call regardless of load. -/
theorem c7_round_robin_fairness (s : LBState) (M i : Nat)
    (halg : s.algorithm = "round-robin") (hst : s.stickySessions = false)
    (hnd : s.workerIds.Nodup) (hi : i < s.workerIds.length) :
    M / s.workerIds.length ≤ (runCalls s M).1.count (s.workerIds.getD i 0) ∧
      (runCalls s M).1.count (s.workerIds.getD i 0) ≤
        (M + s.workerIds.length - 1) / s.workerIds.length := by
  have hN : 0 < s.workerIds.length := by omega
  have hne : s.workerIds.length ≠ 0 := by omega
  rw [runCalls_rr s M halg hst hne,
    count_map_getD s.workerIds
      (fun k => (s.currentWorkerIndex + 1 + k) % s.workerIds.length) M i hnd hi
      (fun k => Nat.mod_lt _ hN)]
  exact countP_range_mod_bounds s.workerIds.length (s.currentWorkerIndex + 1) i M hN hi

/-- Witness for C7: three workers, seven calls; the first worker is selected
twice, which lies between `7 / 3 = 2` and `⌈7 / 3⌉ = 3`. -/
theorem c7_witness :
    7 / ([10, 20, 30] : List Nat).length ≤
        (runCalls
            { workers := [], workerIds := [10, 20, 30], currentWorkerIndex := 0,
              algorithm := "round-robin", stickySessions := false, sticky := [] } 7).1.count
          (([10, 20, 30] : List Nat).getD 0 0) ∧
      (runCalls
          { workers := [], workerIds := [10, 20, 30], currentWorkerIndex := 0,
            algorithm := "round-robin", stickySessions := false, sticky := [] } 7).1.count
          (([10, 20, 30] : List Nat).getD 0 0) ≤
        (7 + ([10, 20, 30] : List Nat).length - 1) / ([10, 20, 30] : List Nat).length :=
  c7_round_robin_fairness
    { workers := [], workerIds := [10, 20, 30], currentWorkerIndex := 0,
      algorithm := "round-robin", stickySessions := false, sticky := [] }
    7 0 rfl rfl (by decide) (by decide)

/-- C8: evaluation of the shutdown timeline.  A signal received while a
shutdown is in progress produces no effects (idempotent); for the failing
environment — a connection that never lets `server.close` complete — the
process stops accepting connections immediately and force-exits with code 1
at the full 30000ms timeout, and no `timeout/2` destroy timer is ever armed,
because the code that arms it sits after the awaited `server.close`, which
never resolves. -/
theorem c8_shutdown_behavior :
    (∀ (T : Nat) (cd : Option Nat) (c : Nat) (w : Bool), shutdownModel true T cd c w = []) ∧
    shutdownModel false 30000 none 1 true =
      [.beforeHookRan, .serverCloseCalled, .procExit 1 30000] ∧
    (∀ t, SdEvent.destroyTimerArmed t ∉ shutdownModel false 30000 none 1 true) := by
  refine ⟨fun T cd c w => rfl, rfl, ?_⟩
  intro t
  simp [shutdownModel]

/-- C9: evaluation of the request-listener timeout wiring.  The timeout
middleware is registered only after the current request's `beforeRequest`
phase has run, so the first dispatched request never arms a timer (the claim
says every request arms one at dispatch start); from the second request on a
timer is armed.  The middleware itself behaves as described: firing marks the
request timed out and sends 408 only when headers have not been sent, and the
finish/close cleanup clears an armed timer. -/
theorem c9_timeout_first_request_unarmed :
    requestArmedFlags 3 = [false, true, true] ∧
    (timeoutFire freshRes).timedOut = true ∧
    (timeoutFire freshRes).statusCode = some 408 ∧
    (timeoutFire { freshRes with headersSent := true }).statusCode = none ∧
    (timeoutFire { freshRes with headersSent := true }).timedOut = true ∧
    (timeoutCleanup (timeoutMiddlewareRun freshRes)).timerArmed = false := by
  decide
